import Mathlib

/-!
Verification of the ingestion-and-normalization core of `http-to-sentry-go`.

The Go source (`src/main.go`, package `main`, together with the near-duplicate
`fastly` package found in the same repository) is shallowly embedded here:

* byte streams are `List Nat`, request bodies after the bounded read are
  `String`;
* the outcome of `encoding/json`'s syntactic parse of the body is an
  `Option Json` value (`none` means the bytes are not valid JSON); the
  struct/slice unmarshalling logic of the Go code is embedded explicitly on
  `Json` values (JSON numbers are modelled as integers, object keys are
  matched exactly as in the struct tags);
* Go `map[string]string` / `map[string]interface{}` values are association
  lists built with an upsert operation (`m[k] = v` replaces the binding);
* `sentry.CaptureEvent` is an oracle `SentryEvent → Option String`
  (`none` models a nil `*EventID`), exactly as the `fastly` package's
  injectable `Capture` field;
* wall-clock timestamps (`time.Now()`, `parseFastlyTimestamp`) are not
  modelled: no verified property mentions them, and `parseFastlyTimestamp`'s
  definition is absent from the sources;
* `strings.ToLower` / `strings.ToUpper` are modelled on the ASCII range
  (`Char.toLower` / `Char.toUpper`), and `strings.TrimSpace` with the ASCII
  and Latin-1 white-space characters recognised by Go's `unicode.IsSpace`.
-/

/-- Severity scale; the Go code uses the `sentry.Level` string constants
`"debug"`, `"info"`, `"warning"`, `"error"`, `"fatal"`. -/
inductive Level where
  | debug
  | info
  | warning
  | error
  | fatal
deriving DecidableEq

/-- JSON values as produced by `encoding/json`'s syntactic parse.  Numbers are
modelled as integers (every number appearing in the verified properties is an
integer status code). -/
inductive Json where
  | null : Json
  | bool : Bool → Json
  | num : Int → Json
  | str : String → Json
  | arr : List Json → Json
  | obj : List (String × Json) → Json

/-- White-space test of Go's `unicode.IsSpace`, restricted to the ASCII and
Latin-1 characters (`\t`, `\n`, vertical tab, form feed, `\r`, space, NEL,
NBSP). -/
def isGoSpace (c : Char) : Bool :=
  c = ' ' || c = '\t' || c = '\n' || c = '\x0B' || c = '\x0C' || c = '\r' ||
    c = '\u0085' || c = ' '

/-- Model of `strings.TrimSpace`: drop leading and trailing white space. -/
def goTrimSpace (s : String) : String :=
  String.mk (((s.data.dropWhile isGoSpace).reverse.dropWhile isGoSpace).reverse)

/-- Model of `strings.ToLower` (ASCII range). -/
def goToLower (s : String) : String :=
  String.mk (s.data.map Char.toLower)

/-- Model of `strings.ToUpper` (ASCII range). -/
def goToUpper (s : String) : String :=
  String.mk (s.data.map Char.toUpper)

/-- Model of `strings.Contains`: some tail of `s` starts with `pat`. -/
def strContains (s pat : String) : Bool :=
  (s.data.tails).any (fun t => pat.data.isPrefixOf t)

/-- Go map assignment `m[k] = v` on an association list: replace the first
binding of `k`, or append a new binding. -/
def upsert {α : Type} : List (String × α) → String → α → List (String × α)
  | [], k, v => [(k, v)]
  | p :: rest, k, v => if p.1 = k then (k, v) :: rest else p :: upsert rest k v

/-- Embeds `addTag` (src/main.go lines 451-456 and the identical helper of the
`fastly` package): store the tag only when the value is non-empty. -/
def addTag (tags : List (String × String)) (k v : String) : List (String × String) :=
  if v = "" then tags else upsert tags k v

/-- Embeds `readLimitedBody` (src/main.go lines 394-405, duplicated in the
`fastly` package): `io.ReadAll (io.LimitReader body (limit+1))` yields the
first `maxBytes + 1` bytes of the stream; if that exceeds `maxBytes`, the
result is cut back to `maxBytes` bytes and flagged truncated.  The stream-error
path (`err != nil`) is outside the returned pair and not modelled. -/
def readLimitedBody (stream : List Nat) (maxBytes : Nat) : List Nat × Bool :=
  let data := stream.take (maxBytes + 1)
  if maxBytes < data.length then (data.take maxBytes, true) else (data, false)

/-- Number of bytes `readLimitedBody` consumes from the stream: `io.ReadAll`
drains the `LimitReader`, which reads at most `maxBytes + 1` bytes. -/
def readLimitedBodyConsumed (stream : List Nat) (maxBytes : Nat) : Nat :=
  (stream.take (maxBytes + 1)).length

/-- Embeds the struct `fastlyEvent` (src/main.go lines 38-57); the `fastly`
package's `Event` type has exactly the same fields and JSON tags and is
represented by the same structure. -/
structure FastlyEvent where
  timestamp : String := ""
  clientIP : String := ""
  geoCountry : String := ""
  geoCity : String := ""
  host : String := ""
  url : String := ""
  originalURL : String := ""
  requestMethod : String := ""
  requestProtocol : String := ""
  requestReferer : String := ""
  requestUserAgent : String := ""
  responseState : String := ""
  responseStatus : Int := 0
  responseReason : String := ""
  responseBodySize : Int := 0
  tlsClientJA3MD5 : String := ""
  fastlyServer : String := ""
  fastlyIsEdge : Bool := false
deriving DecidableEq

/-- Zero value of the Go struct `fastlyEvent`: every field empty/zero. -/
def emptyFastlyEvent : FastlyEvent := {}

/-- Unmarshalling a JSON value into a Go `string` field: a JSON string
replaces the field, JSON `null` has no effect, any other shape is an error. -/
def setStrField (v : Json) (cur : String) : Option String :=
  match v with
  | .str s => some s
  | .null => some cur
  | _ => none

/-- Unmarshalling a JSON value into a Go integer field. -/
def setIntField (v : Json) (cur : Int) : Option Int :=
  match v with
  | .num n => some n
  | .null => some cur
  | _ => none

/-- Unmarshalling a JSON value into a Go `bool` field. -/
def setBoolField (v : Json) (cur : Bool) : Option Bool :=
  match v with
  | .bool b => some b
  | .null => some cur
  | _ => none

/-- One step of `json.Unmarshal` into the `fastlyEvent` struct: dispatch an
object member on the struct's JSON tags; unknown keys are ignored. -/
def setFastlyField (fe : FastlyEvent) (kv : String × Json) : Option FastlyEvent :=
  match kv.1 with
  | "timestamp" => (setStrField kv.2 fe.timestamp).map (fun s => { fe with timestamp := s })
  | "client_ip" => (setStrField kv.2 fe.clientIP).map (fun s => { fe with clientIP := s })
  | "geo_country" => (setStrField kv.2 fe.geoCountry).map (fun s => { fe with geoCountry := s })
  | "geo_city" => (setStrField kv.2 fe.geoCity).map (fun s => { fe with geoCity := s })
  | "host" => (setStrField kv.2 fe.host).map (fun s => { fe with host := s })
  | "url" => (setStrField kv.2 fe.url).map (fun s => { fe with url := s })
  | "original_url" => (setStrField kv.2 fe.originalURL).map (fun s => { fe with originalURL := s })
  | "request_method" => (setStrField kv.2 fe.requestMethod).map (fun s => { fe with requestMethod := s })
  | "request_protocol" => (setStrField kv.2 fe.requestProtocol).map (fun s => { fe with requestProtocol := s })
  | "request_referer" => (setStrField kv.2 fe.requestReferer).map (fun s => { fe with requestReferer := s })
  | "request_user_agent" => (setStrField kv.2 fe.requestUserAgent).map (fun s => { fe with requestUserAgent := s })
  | "response_state" => (setStrField kv.2 fe.responseState).map (fun s => { fe with responseState := s })
  | "response_status" => (setIntField kv.2 fe.responseStatus).map (fun n => { fe with responseStatus := n })
  | "response_reason" => (setStrField kv.2 fe.responseReason).map (fun s => { fe with responseReason := s })
  | "response_body_size" => (setIntField kv.2 fe.responseBodySize).map (fun n => { fe with responseBodySize := n })
  | "tls_client_ja3_md5" => (setStrField kv.2 fe.tlsClientJA3MD5).map (fun s => { fe with tlsClientJA3MD5 := s })
  | "fastly_server" => (setStrField kv.2 fe.fastlyServer).map (fun s => { fe with fastlyServer := s })
  | "fastly_is_edge" => (setBoolField kv.2 fe.fastlyIsEdge).map (fun b => { fe with fastlyIsEdge := b })
  | _ => some fe

/-- Model of `json.Unmarshal(body, &single)` with `single : fastlyEvent`:
JSON `null` leaves the zero value, an object fills the tagged fields member by
member (later duplicates win), and every other JSON shape is an error. -/
def unmarshalFastlyEvent (j : Json) : Option FastlyEvent :=
  match j with
  | .null => some emptyFastlyEvent
  | .obj fields => fields.foldlM setFastlyField emptyFastlyEvent
  | _ => none

/-- Model of `json.Unmarshal(body, &multiple)` with `multiple : []fastlyEvent`:
JSON `null` yields the nil slice, an array unmarshals element-wise, anything
else is an error. -/
def unmarshalFastlyArray (j : Json) : Option (List FastlyEvent) :=
  match j with
  | .null => some []
  | .arr xs => xs.mapM unmarshalFastlyEvent
  | _ => none

/-- Embeds `parseFastlyEvents` (src/main.go lines 420-432) and the `fastly`
package's identical `parseEvents`: try the single-object unmarshal first, then
the array unmarshal; `none` (for the `Option Json` input, bytes that are not
valid JSON) means both `json.Unmarshal` calls fail. -/
def parseFastlyEvents (body : Option Json) : Option (List FastlyEvent) :=
  match body with
  | none => none
  | some j =>
    match unmarshalFastlyEvent j with
    | some single => some [single]
    | none => unmarshalFastlyArray j

/-- Embeds `buildFastlyMessage` (src/main.go lines 341-352). -/
def buildFastlyMessage (fe : FastlyEvent) : String :=
  let state := goToUpper (goTrimSpace fe.responseState)
  let status := if fe.responseStatus = 0 then "" else toString fe.responseStatus
  let message := goTrimSpace ("FASTLY " ++ goTrimSpace (state ++ " " ++ status))
  if message = "FASTLY" then "FASTLY" else message

/-- Embeds `mapFastlyLevel` (src/main.go lines 354-370). -/
def mapFastlyLevel (fe : FastlyEvent) : Level :=
  let state := goToLower (goTrimSpace fe.responseState)
  if state = "error" ∨ state = "fail" ∨ state = "failed" then .error
  else if state = "warning" ∨ state = "warn" then .warning
  else if 500 ≤ fe.responseStatus then .error
  else if 400 ≤ fe.responseStatus then .warning
  else .info

/-- Embeds `buildFastlyURL` (src/main.go lines 372-384) and the `fastly`
package's identical `buildURL`. -/
def buildFastlyURL (fe : FastlyEvent) : String :=
  if fe.host = "" ∧ fe.url = "" then ""
  else
    let path := if fe.url = "" then "/" else fe.url
    let path := if path.startsWith "/" then path else "/" ++ path
    "https://" ++ fe.host ++ path

/-- Embeds `queryStringFromURL` (src/main.go lines 386-392): `url.Parse`
strips the fragment and `RawQuery` is everything after the first `?`;
modelled for URLs without control characters (where `url.Parse` succeeds). -/
def queryStringFromURL (raw : String) : String :=
  let noFrag := (raw.splitOn "#").headD ""
  match noFrag.splitOn "?" with
  | [] => ""
  | [_] => ""
  | _ :: rest => String.intercalate "?" rest

/-- Fields of the inbound `*http.Request` that the handlers read. -/
structure ReqInfo where
  remoteAddr : String := ""
  method : String := ""
  path : String := ""
deriving DecidableEq

/-- Embeds the `sentry.Request` fields populated by the code. -/
structure SentryRequest where
  url : String
  method : String
  headers : List (String × String)
  queryString : String

/-- Embeds the fields of `sentry.Event` that the code writes.  The wall-clock
`Timestamp` field (`time.Now()`, possibly overridden via the
`parseFastlyTimestamp` helper whose definition is absent from the sources) is
not modelled; no verified property mentions it.  `user` is the
`sentry.User.IPAddress` value when set. -/
structure SentryEvent where
  logger : String
  level : Level
  message : String
  tags : List (String × String)
  extra : List (String × Json)
  request : Option SentryRequest
  user : Option String

/-- Embedding of the whole `fastlyEvent` struct as the JSON-like value stored
under the `"fastly"` extra key (the Go code stores the struct itself). -/
def encodeFastlyEvent (fe : FastlyEvent) : Json :=
  .obj [("timestamp", .str fe.timestamp), ("client_ip", .str fe.clientIP),
    ("geo_country", .str fe.geoCountry), ("geo_city", .str fe.geoCity),
    ("host", .str fe.host), ("url", .str fe.url),
    ("original_url", .str fe.originalURL), ("request_method", .str fe.requestMethod),
    ("request_protocol", .str fe.requestProtocol), ("request_referer", .str fe.requestReferer),
    ("request_user_agent", .str fe.requestUserAgent), ("response_state", .str fe.responseState),
    ("response_status", .num fe.responseStatus), ("response_reason", .str fe.responseReason),
    ("response_body_size", .num fe.responseBodySize), ("tls_client_ja3_md5", .str fe.tlsClientJA3MD5),
    ("fastly_server", .str fe.fastlyServer), ("fastly_is_edge", .bool fe.fastlyIsEdge)]

/-- Embeds `buildFastlySentryEvent` (src/main.go lines 288-339); the `fastly`
package's `buildSentryEvent` differs only in calling `buildMessage` and
`mapLevel` in place of `buildFastlyMessage` and `mapFastlyLevel`. -/
def buildFastlySentryEvent (fe : FastlyEvent) (r : ReqInfo) : SentryEvent :=
  let message := buildFastlyMessage fe
  let message := if message = "" then "fastly event" else message
  let tags0 : List (String × String) :=
    [("host", fe.host), ("response_state", fe.responseState),
     ("request_method", fe.requestMethod), ("request_protocol", fe.requestProtocol),
     ("fastly_server", fe.fastlyServer)]
  let tags1 := addTag tags0 "geo_country" fe.geoCountry
  let tags2 := addTag tags1 "geo_city" fe.geoCity
  let tags3 := addTag tags2 "tls_client_ja3_md5" fe.tlsClientJA3MD5
  let tags4 := if fe.fastlyIsEdge then upsert tags3 "fastly_is_edge" "true" else tags3
  let tags5 := addTag tags4 "remote_addr" r.remoteAddr
  let reqURL := buildFastlyURL fe
  let reqCtx : Option SentryRequest :=
    if reqURL = "" then none
    else some
      { url := reqURL
        method := fe.requestMethod
        headers := [("User-Agent", fe.requestUserAgent), ("Referer", fe.requestReferer)]
        queryString := queryStringFromURL reqURL }
  { logger := "fastly"
    level := mapFastlyLevel fe
    message := message
    tags := tags5
    extra := [("fastly", encodeFastlyEvent fe), ("fastly_timestamp", .str fe.timestamp)]
    request := reqCtx
    user := if fe.clientIP = "" then none else some fe.clientIP }

/-- Outcome of the fastly handler after the method check and bounded read:
HTTP status, the events handed to `sentry.CaptureEvent`, and the collected
identifier list. -/
structure FastlyResponse where
  status : Nat
  submitted : List SentryEvent
  eventIds : List String

/-- Embeds `handleFastly` (src/main.go lines 237-286) after the method check
and bounded read (those stages are `readLimitedBody` above), and equally the
`fastly` package's `Handler.HandleEvents` (which takes `capture` as a field).
`body` is the JSON parse outcome of the non-empty body; `capture` is the
sink oracle (`sentry.CaptureEvent`).  The `json.Marshal` of the response map
cannot fail, and both marshal branches answer 202. -/
def handleFastlyCore (body : Option Json) (r : ReqInfo)
    (capture : SentryEvent → Option String) : FastlyResponse :=
  match parseFastlyEvents body with
  | none => ⟨400, [], []⟩
  | some events =>
    if events.isEmpty then ⟨400, [], []⟩
    else
      let subs := events.map (fun fe => buildFastlySentryEvent fe r)
      let ids := subs.filterMap (fun e =>
        match capture e with
        | none => none
        | some id => if id = "" then none else some id)
      ⟨202, subs, ids⟩

namespace Fastly

/-- Embeds `titleCaseSimple` of the `fastly` package: lower-case the string,
then upper-case its first character (the Go code slices the first byte; the
model is exact for ASCII). -/
def titleCaseSimple (value : String) : String :=
  match (goToLower value).data with
  | [] => ""
  | c :: cs => String.mk (c.toUpper :: cs)

/-- Embeds `buildMessage` of the `fastly` package. -/
def buildMessage (fe : FastlyEvent) : String :=
  let state := titleCaseSimple (goTrimSpace fe.responseState)
  let status := if fe.responseStatus = 0 then "" else toString fe.responseStatus
  let reason := goTrimSpace fe.responseReason
  let message := goTrimSpace ("HTTP::" ++ (state ++ status))
  let message := if message = "HTTP::" then "HTTP" else message
  if reason = "" then message else message ++ " (" ++ reason ++ ")"

/-- Embeds `mapLevel` of the `fastly` package. -/
def mapLevel (fe : FastlyEvent) : Level :=
  let state := goToLower (goTrimSpace fe.responseState)
  if state = "error" ∨ state = "fail" ∨ state = "failed" then .error
  else if state = "warning" ∨ state = "warn" then .warning
  else if 500 ≤ fe.responseStatus then .error
  else if 400 ≤ fe.responseStatus then .warning
  else .info

end Fastly

/-- Embeds the struct `payload` (src/main.go lines 30-36).  `tags` and
`extra` are `Option` because the Go code distinguishes a nil map (absent)
from an empty one. -/
structure Payload where
  message : String := ""
  level : String := ""
  timestamp : String := ""
  tags : Option (List (String × String)) := none
  extra : Option (List (String × Json)) := none

/-- Zero value of the Go struct `payload`. -/
def emptyPayload : Payload := {}

/-- Unmarshalling a JSON object into a Go `map[string]string`: every member
value must be a string (`null` stores the zero value `""`). -/
def unmarshalStringMap (fields : List (String × Json)) : Option (List (String × String)) :=
  fields.foldlM (fun acc kv =>
    match kv.2 with
    | .str s => some (upsert acc kv.1 s)
    | .null => some (upsert acc kv.1 "")
    | _ => none) []

/-- One step of `json.Unmarshal` into the `payload` struct. -/
def setPayloadField (pp : Payload) (kv : String × Json) : Option Payload :=
  match kv.1 with
  | "message" => (setStrField kv.2 pp.message).map (fun s => { pp with message := s })
  | "level" => (setStrField kv.2 pp.level).map (fun s => { pp with level := s })
  | "timestamp" => (setStrField kv.2 pp.timestamp).map (fun s => { pp with timestamp := s })
  | "tags" =>
    match kv.2 with
    | .null => some pp
    | .obj fields => (unmarshalStringMap fields).map (fun m => { pp with tags := some m })
    | _ => none
  | "extra" =>
    match kv.2 with
    | .null => some pp
    | .obj fields =>
      some { pp with extra := some (fields.foldl (fun acc kv => upsert acc kv.1 kv.2) []) }
    | _ => none
  | _ => some pp

/-- Model of `json.Unmarshal(body, &parsed)` with `parsed : payload`. -/
def unmarshalPayload (j : Json) : Option Payload :=
  match j with
  | .null => some emptyPayload
  | .obj fields => fields.foldlM setPayloadField emptyPayload
  | _ => none

/-- Embeds `parsePayload` (src/main.go lines 407-418): reject when the
content-type does not contain `"application/json"`, otherwise attempt the
JSON unmarshal; any failure yields the zero payload and `false`.  The
`bodyJson` argument is the syntactic JSON parse outcome of the body bytes
(`none` = invalid JSON). -/
def parsePayload (contentType : String) (bodyJson : Option Json) : Payload × Bool :=
  if strContains contentType "application/json" = false then (emptyPayload, false)
  else
    match bodyJson.bind unmarshalPayload with
    | none => (emptyPayload, false)
    | some pp => (pp, true)

/-- Embeds `parseLevel` (src/main.go lines 434-449). -/
def parseLevel (level : String) : Level :=
  let l := goToLower (goTrimSpace level)
  if l = "fatal" then .fatal
  else if l = "error" then .error
  else if l = "warning" ∨ l = "warn" then .warning
  else if l = "debug" then .debug
  else if l = "info" ∨ l = "" then .info
  else .info

/-- Embeds the event synthesis of `handleIngest` (src/main.go lines 173-218):
content-type is lower-cased, the payload decoded, and the event assembled.
`sentry.NewEvent()` initialises `Extra` to an empty non-nil map, so the
`event.Extra == nil` re-creation at lines 204-206 never fires and `extra`
is modelled as a plain list. -/
def ingestEvent (r : ReqInfo) (contentType body : String) (bodyJson : Option Json) :
    SentryEvent :=
  let contentTypeLower := goToLower contentType
  let pr := parsePayload contentTypeLower bodyJson
  let pp := pr.1
  let parsed := pr.2
  let baseTags : List (String × String) :=
    [("remote_addr", r.remoteAddr), ("method", r.method), ("path", r.path)]
  if parsed then
    let message := if pp.message = "" then body else pp.message
    let tags :=
      match pp.tags with
      | none => baseTags
      | some ts =>
        ts.foldl (fun acc kv =>
          if kv.1 ≠ "" ∧ kv.2 ≠ "" then upsert acc kv.1 kv.2 else acc) baseTags
    let extra0 := match pp.extra with | none => [] | some e => e
    let extra :=
      if pp.timestamp = "" then extra0
      else upsert extra0 "payload_timestamp" (.str pp.timestamp)
    { logger := "http"
      level := parseLevel pp.level
      message := if message = "" then "(empty message)" else message
      tags := tags
      extra := extra
      request := none
      user := none }
  else
    { logger := "http"
      level := .info
      message := if body = "" then "(empty message)" else body
      tags := baseTags
      extra := [("raw", .str body)]
      request := none
      user := none }

/-- Outcome of the generic ingest handler after the method check and bounded
read: HTTP status, the event handed to `sentry.CaptureEvent` (if any), and
the identifier echoed in the response body (if any). -/
structure IngestResponse where
  status : Nat
  submitted : Option SentryEvent
  eventId : Option String

/-- Embeds `handleIngest` (src/main.go lines 153-235) after the method check
and bounded read: an empty body is a 400; otherwise the synthesized event is
captured and the request is answered 202, echoing the identifier only when
the sink returned a non-empty one. -/
def handleIngestCore (r : ReqInfo) (contentType body : String) (bodyJson : Option Json)
    (capture : SentryEvent → Option String) : IngestResponse :=
  if body = "" then ⟨400, none, none⟩
  else
    let ev := ingestEvent r contentType body bodyJson
    match capture ev with
    | none => ⟨202, some ev, none⟩
    | some id => if id = "" then ⟨202, some ev, none⟩ else ⟨202, some ev, some id⟩

/-- Modelled from the spec: the edge-path severity policy as §4.4 words it —
check the trimmed, case-folded response-outcome string first
(`error`/`fail`/`failed` → error, `warning`/`warn` → warning), else fall back
to the status code (≥500 → error, ≥400 → warning, else info). -/
def edgeLevelSpec (state : String) (status : Int) : Level :=
  let s := goToLower (goTrimSpace state)
  if s = "error" ∨ s = "fail" ∨ s = "failed" then .error
  else if s = "warning" ∨ s = "warn" then .warning
  else if 500 ≤ status then .error
  else if 400 ≤ status then .warning
  else .info

/-- The edge event of the spec's scenario `response_status = 503`,
`response_state = "ERROR"`. -/
def ev503 : FastlyEvent :=
  { emptyFastlyEvent with responseState := "ERROR", responseStatus := 503 }

/-- An edge event on which the two message builders visibly diverge. -/
def evDiverge : FastlyEvent :=
  { emptyFastlyEvent with
    responseState := "ERROR", responseStatus := 503, responseReason := "origin timeout" }

/-- Tag keys that `buildFastlySentryEvent` stores unconditionally
(src/main.go lines 304-310). -/
def fastlyBaseTagKeys : List String :=
  ["host", "response_state", "request_method", "request_protocol", "fastly_server"]

/-- Tag keys that `handleIngest` stores unconditionally from the request
(src/main.go lines 181-185). -/
def ingestBaseTagKeys : List String :=
  ["remote_addr", "method", "path"]

/-- A sample request used in counterexamples. -/
def rqSample : ReqInfo :=
  { remoteAddr := "203.0.113.9:50714", method := "POST", path := "/fastly" }

/-- C1: for every input byte stream `B` and limit `L`: if `len B ≤ L`,
`readLimitedBody` returns `(B, truncated = false)`; if `len B = L + k` with
`k ≥ 1`, it returns `(B.take L, truncated = true)`; and it never consumes more
than `L + 1` bytes from the stream. -/
theorem readLimitedBody_bounded :
    (∀ (B : List Nat) (L : Nat), B.length ≤ L → readLimitedBody B L = (B, false)) ∧
    (∀ (B : List Nat) (L k : Nat), 1 ≤ k → B.length = L + k →
      readLimitedBody B L = (B.take L, true)) ∧
    (∀ (B : List Nat) (L : Nat), readLimitedBodyConsumed B L ≤ L + 1) := by
  refine ⟨?_, ?_, ?_⟩
  · intro B L h
    have htake : B.take (L + 1) = B := List.take_of_length_le (by omega)
    simp only [readLimitedBody, htake]
    rw [if_neg (by omega)]
  · intro B L k hk hlen
    have hlt : L + 1 ≤ B.length := by omega
    have htlen : (B.take (L + 1)).length = L + 1 := by
      rw [List.length_take]; omega
    have hcond : L < (B.take (L + 1)).length := by omega
    have htt : (B.take (L + 1)).take L = B.take L := by
      rw [List.take_take]; congr 1; omega
    simp only [readLimitedBody, if_pos hcond, htt]
  · intro B L
    have := List.length_take (L + 1) B
    simp only [readLimitedBodyConsumed]
    omega

/-- Witness for `readLimitedBody_bounded` at concrete inputs: the stream
`[10, 20, 30]` with limit `3` is returned whole, and with limit `2` it is
truncated to two bytes. -/
theorem readLimitedBody_bounded_wit :
    readLimitedBody [10, 20, 30] 3 = ([10, 20, 30], false) ∧
    readLimitedBody [10, 20, 30] 2 = ([10, 20], true) := by
  refine ⟨readLimitedBody_bounded.1 [10, 20, 30] 3 (by decide), ?_⟩
  have h := readLimitedBody_bounded.2.1 [10, 20, 30] 2 1 (by decide) (by decide)
  simpa using h

/-- Upsert preserves a pointwise property when the inserted pair satisfies
it. -/
theorem all_upsert {P : String × String → Bool} :
    ∀ (l : List (String × String)) (k v : String),
      l.all P = true → P (k, v) = true → (upsert l k v).all P = true := by
  intro l
  induction l with
  | nil => intro k v _ hv; simpa [upsert] using hv
  | cons p rest ih =>
    intro k v hl hv
    simp only [List.all_cons, Bool.and_eq_true] at hl
    by_cases h : p.1 = k
    · simp [upsert, h, hv, hl.2]
    · simp [upsert, h, hl.1, ih k v hl.2 hv]

/-- addTag preserves a pointwise property when every non-empty inserted value
satisfies it. -/
theorem all_addTag {P : String × String → Bool} (l : List (String × String)) (k v : String)
    (hl : l.all P = true) (hv : v ≠ "" → P (k, v) = true) :
    (addTag l k v).all P = true := by
  by_cases h : v = ""
  · simpa [addTag, h] using hl
  · simpa [addTag, h] using all_upsert l k v hl (hv h)

/-- The tag-merging fold of `handleIngest` preserves a pointwise property
that holds of every pair with a non-empty value. -/
theorem all_mergeFold {P : String × String → Bool}
    (hP : ∀ k v : String, v ≠ "" → P (k, v) = true) :
    ∀ (ts base : List (String × String)), base.all P = true →
      (ts.foldl (fun acc kv =>
        if kv.1 ≠ "" ∧ kv.2 ≠ "" then upsert acc kv.1 kv.2 else acc) base).all P = true := by
  intro ts
  induction ts with
  | nil => intro base hb; simpa using hb
  | cons kv rest ih =>
    intro base hb
    simp only [List.foldl_cons]
    by_cases h : kv.1 ≠ "" ∧ kv.2 ≠ ""
    · rw [if_pos h]
      exact ih _ (all_upsert base kv.1 kv.2 hb (hP kv.1 kv.2 h.2))
    · rw [if_neg h]
      exact ih base hb

/-- C2 counterexample: for the all-default edge event, the synthesized tag
mapping stores the key `host` with the empty string as value, so the claim
that a tag with an empty value never appears is false. -/
theorem fastly_base_tag_empty_cex :
    ("host", "") ∈ (buildFastlySentryEvent emptyFastlyEvent rqSample).tags := by
  decide

/-- C2 amended: every synthesized tag either has a non-empty value or is one
of the unconditionally-stored base tags (edge path: host, response_state,
request_method, request_protocol, fastly_server; generic path: remote_addr,
method, path), which may carry the empty string. -/
theorem tags_empty_only_base :
    (∀ (fe : FastlyEvent) (r : ReqInfo),
      ((buildFastlySentryEvent fe r).tags.all
        (fun p => p.2 != "" || fastlyBaseTagKeys.contains p.1)) = true) ∧
    (∀ (r : ReqInfo) (ct body : String) (j : Option Json),
      ((ingestEvent r ct body j).tags.all
        (fun p => p.2 != "" || ingestBaseTagKeys.contains p.1)) = true) := by
  constructor
  · intro fe r
    have hP : ∀ k v : String, v ≠ "" →
        ((fun p : String × String => p.2 != "" || fastlyBaseTagKeys.contains p.1) (k, v)) = true := by
      intro k v hv
      simp [hv]
    have hbase :
        (([("host", fe.host), ("response_state", fe.responseState),
          ("request_method", fe.requestMethod), ("request_protocol", fe.requestProtocol),
          ("fastly_server", fe.fastlyServer)] : List (String × String)).all
          (fun p => p.2 != "" || fastlyBaseTagKeys.contains p.1)) = true := by
      simp [fastlyBaseTagKeys]
    simp only [buildFastlySentryEvent]
    apply all_addTag _ _ _ _ (hP _ _)
    by_cases he : fe.fastlyIsEdge
    · rw [if_pos he]
      apply all_upsert _ _ _ _ (hP _ _ (by decide))
      exact all_addTag _ _ _ (all_addTag _ _ _ (all_addTag _ _ _ hbase (hP _ _)) (hP _ _)) (hP _ _)
    · rw [if_neg he]
      exact all_addTag _ _ _ (all_addTag _ _ _ (all_addTag _ _ _ hbase (hP _ _)) (hP _ _)) (hP _ _)
  · intro r ct body j
    have hP : ∀ k v : String, v ≠ "" →
        ((fun p : String × String => p.2 != "" || ingestBaseTagKeys.contains p.1) (k, v)) = true := by
      intro k v hv
      simp [hv]
    have hbase :
        (([("remote_addr", r.remoteAddr), ("method", r.method), ("path", r.path)] :
          List (String × String)).all
          (fun p => p.2 != "" || ingestBaseTagKeys.contains p.1)) = true := by
      simp [ingestBaseTagKeys]
    simp only [ingestEvent]
    split
    · cases htags : (parsePayload (goToLower ct) j).1.tags with
      | none => simpa [htags] using hbase
      | some ts => simpa [htags] using all_mergeFold hP ts _ hbase
    · simpa using hbase

/-- C3: the edge-event decoder tries the single-object unmarshal first and
falls back to the array unmarshal only when the object unmarshal fails;
invalid JSON makes both fail; `[]` decodes to `ok = true` with zero events,
which the fastly handler rejects with a 400. -/
theorem parseFastlyEvents_object_first :
    (∀ (j : Json) (e : FastlyEvent), unmarshalFastlyEvent j = some e →
      parseFastlyEvents (some j) = some [e]) ∧
    (∀ j : Json, unmarshalFastlyEvent j = none →
      parseFastlyEvents (some j) = unmarshalFastlyArray j) ∧
    parseFastlyEvents none = none ∧
    parseFastlyEvents (some (Json.arr [])) = some [] ∧
    (∀ (r : ReqInfo) (capture : SentryEvent → Option String),
      (handleFastlyCore (some (Json.arr [])) r capture).status = 400) := by
  refine ⟨?_, ?_, rfl, rfl, fun r capture => rfl⟩
  · intro j e h
    simp [parseFastlyEvents, h]
  · intro j h
    simp [parseFastlyEvents, h]

/-- Witness for `parseFastlyEvents_object_first`: a concrete object input is
decoded by the single-object branch, and a concrete string input falls
through to the (failing) array branch. -/
theorem parseFastlyEvents_object_first_wit :
    parseFastlyEvents (some (Json.obj [("host", Json.str "x")])) =
      some [{ emptyFastlyEvent with host := "x" }] ∧
    parseFastlyEvents (some (Json.str "zzz")) = unmarshalFastlyArray (Json.str "zzz") :=
  ⟨parseFastlyEvents_object_first.1 _ _ (by rfl),
   parseFastlyEvents_object_first.2.1 _ (by rfl)⟩

/-- C4: both edge-path severity classifiers implement the spec's policy —
trimmed, case-folded outcome string first (`error`/`fail`/`failed` → error,
`warning`/`warn` → warning, taking precedence over any status code), then
status-code fallback (≥500 → error, ≥400 → warning, else info); and the
scenario object with status 503 and outcome `"ERROR"` yields one event with
severity error. -/
theorem edge_severity_spec :
    (∀ fe : FastlyEvent, mapFastlyLevel fe = edgeLevelSpec fe.responseState fe.responseStatus) ∧
    (∀ fe : FastlyEvent, Fastly.mapLevel fe = edgeLevelSpec fe.responseState fe.responseStatus) ∧
    parseFastlyEvents (some (Json.obj
      [("response_status", Json.num 503), ("response_state", Json.str "ERROR")])) =
      some [ev503] ∧
    mapFastlyLevel ev503 = .error :=
  ⟨fun _ => rfl, fun _ => rfl, rfl, rfl⟩

/-- C5: the generic-path severity classifier depends only on the trimmed,
case-folded level string, maps the recognised tokens as specified, and sends
every unrecognised (or empty) level to info. -/
theorem parseLevel_case_whitespace :
    (∀ s t : String, goToLower (goTrimSpace s) = goToLower (goTrimSpace t) →
      parseLevel s = parseLevel t) ∧
    parseLevel "fatal" = .fatal ∧ parseLevel "error" = .error ∧
    parseLevel "warning" = .warning ∧ parseLevel "warn" = .warning ∧
    parseLevel "debug" = .debug ∧ parseLevel "info" = .info ∧ parseLevel "" = .info ∧
    (∀ s : String,
      goToLower (goTrimSpace s) ∉ (["fatal", "error", "warning", "warn", "debug"] : List String) →
      parseLevel s = .info) := by
  refine ⟨?_, rfl, rfl, rfl, rfl, rfl, rfl, rfl, ?_⟩
  · intro s t h
    simp only [parseLevel]
    rw [h]
  · intro s h
    simp only [List.mem_cons, List.mem_singleton, not_or] at h
    simp only [parseLevel]
    split_ifs <;> first | rfl | tauto

/-- Witness for `parseLevel_case_whitespace`: a padded upper-case level is
classified like its lower-case form, and a garbage level yields info. -/
theorem parseLevel_case_whitespace_wit :
    parseLevel "  ERROR " = parseLevel "error" ∧ parseLevel "LeVeL" = .info :=
  ⟨parseLevel_case_whitespace.1 "  ERROR " "error" (by rfl),
   parseLevel_case_whitespace.2.2.2.2.2.2.2.2 "LeVeL" (by decide)⟩

/-- A guarded message substitution never yields the empty string when the
fallback is non-empty. -/
theorem guard_nonempty (m fallback : String) (hf : fallback ≠ "") :
    ((if m = "" then fallback else m) == "") = false := by
  by_cases h : m = "" <;> simp [h, hf]

/-- C6: the generic payload decoder (behind the handler's content-type
lowering) fails exactly when the content-type lacks the `application/json`
token or the JSON unmarshal of the body fails; any failure yields the zero
payload, and the handler then uses the literal body text as the message and
still answers 202, never a 400. -/
theorem parsePayload_fallback :
    (∀ (ct : String) (j : Option Json),
      (parsePayload (goToLower ct) j).2 = false ↔
        (strContains (goToLower ct) "application/json" = false ∨
          j.bind unmarshalPayload = none)) ∧
    (∀ (ct : String) (j : Option Json),
      (parsePayload ct j).2 = false → (parsePayload ct j).1 = emptyPayload) ∧
    (∀ (r : ReqInfo) (ct body : String) (j : Option Json),
      (parsePayload (goToLower ct) j).2 = false → body ≠ "" →
        (ingestEvent r ct body j).message = body) ∧
    (∀ (r : ReqInfo) (ct body : String) (j : Option Json)
      (capture : SentryEvent → Option String), body ≠ "" →
        (handleIngestCore r ct body j capture).status = 202) := by
  refine ⟨?_, ?_, ?_, ?_⟩
  · intro ct j
    by_cases hc : strContains (goToLower ct) "application/json" = false
    · simp [parsePayload, hc]
    · cases hj : j.bind unmarshalPayload with
      | none => simp [parsePayload, hc, hj]
      | some pp => simp [parsePayload, hc, hj]
  · intro ct j h
    by_cases hc : strContains ct "application/json" = false
    · simp [parsePayload, hc]
    · cases hj : j.bind unmarshalPayload with
      | none => simp [parsePayload, hc, hj]
      | some pp => simp [parsePayload, hc, hj] at h
  · intro r ct body j hp hb
    simp only [ingestEvent, hp, Bool.false_eq_true, if_false, if_neg hb]
  · intro r ct body j capture hb
    simp only [handleIngestCore, if_neg hb]
    cases capture (ingestEvent r ct body j) with
    | none => rfl
    | some id =>
      by_cases hid : id = "" <;> simp [hid]

/-- Witness for `parsePayload_fallback`: with JSON content-type but a body
that is not a JSON object, the payload is the zero payload, the synthesized
message is the literal body, and the handler answers 202. -/
theorem parsePayload_fallback_wit :
    (parsePayload "application/json" (some (Json.str "oops"))).1 = emptyPayload ∧
    (ingestEvent rqSample "application/json" "oops" (some (Json.str "oops"))).message = "oops" ∧
    (handleIngestCore rqSample "application/json" "oops" (some (Json.str "oops"))
      (fun _ => none)).status = 202 :=
  ⟨parsePayload_fallback.2.1 "application/json" (some (Json.str "oops")) (by rfl),
   parsePayload_fallback.2.2.1 rqSample "application/json" "oops" (some (Json.str "oops"))
     (by rfl) (by decide),
   parsePayload_fallback.2.2.2 rqSample "application/json" "oops" (some (Json.str "oops"))
     (fun _ => none) (by decide)⟩

/-- C7: the synthesized event message is never empty: both handlers
substitute a fixed placeholder (`"(empty message)"` on the generic path,
`"fastly event"` on the edge path) whenever no message could be derived. -/
theorem event_message_nonempty :
    (∀ (r : ReqInfo) (ct body : String) (j : Option Json),
      ((ingestEvent r ct body j).message == "") = false) ∧
    (∀ (fe : FastlyEvent) (r : ReqInfo),
      ((buildFastlySentryEvent fe r).message == "") = false) := by
  constructor
  · intro r ct body j
    simp only [ingestEvent]
    split <;> split <;> simp_all
    split <;> simp_all
  · intro fe r
    simp only [buildFastlySentryEvent]
    split <;> simp_all

/-- C8: on the event with outcome `"ERROR"`, status 503 and reason
`"origin timeout"`, the main-module builder synthesizes `"FASTLY ERROR 503"`
while the second module's builder synthesizes
`"HTTP::Error503 (origin timeout)"`, so the two translators disagree. -/
theorem edge_message_translators_diverge :
    buildFastlyMessage evDiverge = "FASTLY ERROR 503" ∧
    Fastly.buildMessage evDiverge = "HTTP::Error503 (origin timeout)" ∧
    (buildFastlyMessage evDiverge == Fastly.buildMessage evDiverge) = false :=
  ⟨rfl, rfl, rfl⟩

/-- The identifier-collecting loop keeps exactly the non-nil, non-empty sink
results, in submission order. -/
theorem filterMap_ids (capture : SentryEvent → Option String) :
    ∀ subs : List SentryEvent,
      subs.filterMap (fun e =>
        match capture e with
        | none => none
        | some id => if id = "" then none else some id) =
      (subs.filterMap capture).filter (fun s => s != "") := by
  intro subs
  induction subs with
  | nil => rfl
  | cons e rest ih =>
    cases hc : capture e with
    | none => simp [List.filterMap_cons, hc, ih]
    | some id =>
      by_cases hid : id = "" <;>
        simp [List.filterMap_cons, List.filter_cons, hc, hid, ih]

/-- C9: for a successfully decoded, non-empty batch of edge events, the
handler answers 202, submits one synthesized event per edge event in order,
and returns exactly the non-empty identifiers the sink produced, in
submission order; nil or empty identifiers are dropped without aborting. -/
theorem fastly_batch_ids (j : Option Json) (r : ReqInfo)
    (capture : SentryEvent → Option String) (events : List FastlyEvent)
    (hp : parseFastlyEvents j = some events) (hne : events ≠ []) :
    (handleFastlyCore j r capture).status = 202 ∧
    (handleFastlyCore j r capture).submitted =
      events.map (fun fe => buildFastlySentryEvent fe r) ∧
    (handleFastlyCore j r capture).eventIds =
      ((events.map (fun fe => buildFastlySentryEvent fe r)).filterMap capture).filter
        (fun s => s != "") := by
  have hie : events.isEmpty = false := by
    cases events with
    | nil => exact absurd rfl hne
    | cons a l => rfl
  simp only [handleFastlyCore, hp, hie, Bool.false_eq_true, if_false]
  exact ⟨trivial, trivial, filterMap_ids capture _⟩

/-- Witness for `fastly_batch_ids`: a one-event batch with a sink returning
the identifier `"abc"` is accepted with that identifier collected. -/
theorem fastly_batch_ids_wit :
    (handleFastlyCore (some (Json.obj [("host", Json.str "h")])) rqSample
      (fun _ => some "abc")).status = 202 ∧
    (handleFastlyCore (some (Json.obj [("host", Json.str "h")])) rqSample
      (fun _ => some "abc")).eventIds = ["abc"] := by
  have h := fastly_batch_ids (some (Json.obj [("host", Json.str "h")])) rqSample
    (fun _ => some "abc") [{ emptyFastlyEvent with host := "h" }] (by rfl) (by decide)
  exact ⟨h.1, by rw [h.2.2]; rfl⟩

/-- C10: the body consisting of the JSON literal `null` decodes through the
single-object branch to one all-default edge event, and the fastly handler
accepts it with 202, submitting that one placeholder event. -/
theorem null_body_placeholder_event :
    parseFastlyEvents (some Json.null) = some [emptyFastlyEvent] ∧
    (∀ (r : ReqInfo) (capture : SentryEvent → Option String),
      (handleFastlyCore (some Json.null) r capture).status = 202 ∧
      (handleFastlyCore (some Json.null) r capture).submitted =
        [buildFastlySentryEvent emptyFastlyEvent r]) :=
  ⟨rfl, fun _ _ => ⟨rfl, rfl⟩⟩
